import Mathlib

/-!
Verification of the scheduling and delivery core of the whatsapp-scheduler
backend (`src/backend/app`), shallowly embedded in Lean.

Conventions of the embedding:
* Timestamps are integers (microseconds, matching Python `datetime` resolution;
  `replace(microsecond=0)` becomes flooring to a multiple of 1000000).
* The relational store is a `DB` value holding the three tables used by the
  core; a SQLAlchemy `commit` becomes producing the next `DB` snapshot, and
  functions that commit several times return the list of committed snapshots.
* The Celery broker is modelled by recording enqueued `(schedule id, task id)`
  pairs; `delay` itself does not run the task.
* The WhatsApp gateway (`app/services/whatsapp.py`) is an oracle
  `Nat → GwResult` giving, for the i-th `send_message` call of one task run,
  either a success dict, a failure dict (`error` / `details` keys), or a
  raised exception.
-/

namespace WhatsAppScheduler

/-- A recipient row (`app/models/recipient.py`): name and phone number are the
fields the delivery core reads. -/
structure Recipient where
  name : String
  phone_number : String
deriving Repr, DecidableEq

/-- A message row (`app/models/message.py`): the delivery core reads `content`. -/
structure MessageRec where
  id : Nat
  content : String
deriving Repr, DecidableEq

/-- A recipient-group row with its resolved member list
(`app/models/recipient.py`). -/
structure RecipientGroup where
  id : Nat
  name : String
  recipients : List Recipient
deriving Repr, DecidableEq

/-- A `scheduled_messages` row (`app/models/schedule.py`). `status` is a free
string column in the source, so it is a `String` here; `task_id` is the
nullable Celery task id column. -/
structure ScheduledMessage where
  id : Nat
  message_id : Nat
  group_id : Nat
  scheduled_time : Int
  status : String
  task_id : Option String
  error_message : Option String
  sent_at : Option Int
deriving Repr, DecidableEq

/-- The relational store: the three tables the delivery core touches. -/
structure DB where
  schedules : List ScheduledMessage
  messages : List MessageRec
  groups : List RecipientGroup
deriving Repr, DecidableEq

/-- `db.query(ScheduledMessage).filter(ScheduledMessage.id == i).first()`. -/
def DB.findSchedule (db : DB) (i : Nat) : Option ScheduledMessage :=
  db.schedules.find? (fun m => m.id == i)

/-- Relationship load `scheduled_msg.message` (FK `message_id`). -/
def DB.findMessage (db : DB) (i : Nat) : Option MessageRec :=
  db.messages.find? (fun m => m.id == i)

/-- Relationship load `scheduled_msg.group` (FK `group_id`). -/
def DB.findGroup (db : DB) (i : Nat) : Option RecipientGroup :=
  db.groups.find? (fun g => g.id == i)

/-- Committing a mutated ORM row: the row with this primary key is replaced. -/
def DB.updateSchedule (db : DB) (m : ScheduledMessage) : DB :=
  { db with schedules := db.schedules.map (fun x => if x.id = m.id then m else x) }

/-- Outcome of one `whatsapp_service.send_message` call as the worker observes
it (`app/services/whatsapp.py`): a dict with `success = True`; a dict with
`success = False` and optional `error` / `details` entries; or a raised
exception. -/
inductive GwResult where
  | ok
  | fail (err : Option String) (details : Option String)
  | exn (msg : String)
deriving Repr, DecidableEq

/-- `r` is a success result. -/
def isOk : GwResult → Bool
  | .ok => true
  | _ => false

/-- `r` is a failure result (not a raised exception). -/
def isFail : GwResult → Bool
  | .fail _ _ => true
  | _ => false

/-- `r` is a raised exception. -/
def isExn : GwResult → Bool
  | .exn _ => true
  | _ => false

/-- The failure description built at `whatsapp_tasks.py:94-96`:
`"Failed to send to {name} ({phone}): {error}"`, with `- Details: ...`
appended when the result dict has a `details` entry. -/
def errorText (r : Recipient) (err : Option String) (details : Option String) : String :=
  let base := "Failed to send to " ++ r.name ++ " (" ++ r.phone_number ++ "): " ++
    err.getD "Unknown error"
  match details with
  | some d => base ++ " - Details: " ++ d
  | none => base

/-- Each recipient of the resolved group paired with the gateway outcome of
its `send_message` call, in list order (the worker calls the gateway once per
recipient, sequentially). -/
def pairOutcomes : List Recipient → (Nat → GwResult) → Nat → List (Recipient × GwResult)
  | [], _, _ => []
  | r :: rest, gw, i => (r, gw i) :: pairOutcomes rest gw (i + 1)

/-- Result of the recipient loop: the final counters and error list, or the
message of an exception that escaped the loop. -/
inductive LoopOutcome where
  | done (success_count fail_count : Nat) (errors : List String)
  | raised (msg : String)
deriving Repr, DecidableEq

/-- The recipient fan-out loop (`whatsapp_tasks.py:74-98`): accumulate
`success_count`, `fail_count` and the `errors` list; an exception from the
gateway aborts the loop and propagates. -/
def sendLoop : List (Recipient × GwResult) → Nat → Nat → List String → LoopOutcome
  | [], s, f, es => .done s f es
  | (_, .ok) :: rest, s, f, es => sendLoop rest (s + 1) f es
  | (r, .fail e d) :: rest, s, f, es => sendLoop rest s (f + 1) (es ++ [errorText r e d])
  | (_, .exn m) :: _, _, _, _ => .raised m

/-- Placeholder for the `AttributeError` Python raises when a relationship
target is missing and the worker dereferences it (`whatsapp_tasks.py:69-71`). -/
def noneAttrError : String := "AttributeError: NoneType"

/-- The result-aggregation step of the worker (`whatsapp_tasks.py:100-120`):
from the in-flight record `m1`, the resolved recipient count, the loop
counters and the error list, compute the record as it is finally committed
(status per lines 103-115, `sent_at` at line 117, the first-5 error join at
lines 118-119). -/
def finalRecord (m1 : ScheduledMessage) (numRecipients success_count fail_count : Nat)
    (errors : List String) (now : Int) : ScheduledMessage :=
  let m2 :=
    if numRecipients = 0 then
      { m1 with status := "failed",
                error_message := some "No recipients found in group" }
    else if fail_count = 0 ∧ 0 < success_count then
      { m1 with status := "sent" }
    else if success_count = 0 then
      { m1 with status := "failed" }
    else
      { m1 with status := "partially_sent" }
  { m2 with
    sent_at := some now,
    error_message :=
      if errors = [] then m2.error_message
      else some (String.intercalate "; " (errors.take 5)) }

/-- The Delivery Worker `send_scheduled_message` (`whatsapp_tasks.py:44-135`).
Returns the list of committed `DB` snapshots in commit order, and
`some e` when the task re-raises an exception `e` (after the
catch-and-commit handler at lines 128-135 ran, which fires whenever
`scheduled_msg` was already loaded). An absent record is a no-op
(lines 54-56). -/
def send_scheduled_message (db : DB) (scheduled_message_id : Nat)
    (gw : Nat → GwResult) (now : Int) : List DB × Option String :=
  match db.findSchedule scheduled_message_id with
  | none => ([], none)
  | some m0 =>
    -- lines 60-62: status := "sending"; commit
    let m1 := { m0 with status := "sending" }
    let db1 := db.updateSchedule m1
    match db.findMessage m0.message_id, db.findGroup m0.group_id with
    | some _, some group =>
      match sendLoop (pairOutcomes group.recipients gw 0) 0 0 [] with
      | .raised e =>
        -- lines 128-135: mark failed, commit, re-raise
        let m2 := { m1 with status := "failed",
                            error_message := some ("System error: " ++ e) }
        ([db1, db1.updateSchedule m2], some e)
      | .done success_count fail_count errors =>
        ([db1, db1.updateSchedule
            (finalRecord m1 group.recipients.length success_count fail_count errors now)],
          none)
    | _, _ =>
      -- a missing FK target raises AttributeError inside the try block,
      -- landing in the same handler (lines 128-135)
      let m2 := { m1 with status := "failed",
                          error_message := some ("System error: " ++ noneAttrError) }
      ([db1, db1.updateSchedule m2], some noneAttrError)

/-- The store state after the worker's last commit (the input state if it
committed nothing). -/
def workerFinal (db : DB) (i : Nat) (gw : Nat → GwResult) (now : Int) : DB :=
  ((send_scheduled_message db i gw now).1).getLastD db

/-! ## The schedules API (`app/api/schedules.py`) -/

/-- The `POST /schedules` request body (`app/schemas.py`,
`ScheduledMessageCreate`): only these three fields can be supplied. -/
structure ScheduledMessageCreate where
  message_id : Nat
  group_id : Nat
  scheduled_time : Int
deriving Repr, DecidableEq

/-- `POST /schedules` (`schedules.py:12-44`). `now1` is the clock read of the
future-time validation (line 25), `now2` the clock read of the
immediate-send check after the insert (line 34); `rid` is the primary key
assigned by the store and `tid` the Celery task id returned if `delay` is
called. On success returns the committed snapshots and the returned record;
on failure `(status code, detail)`. -/
def create_scheduled_message (db : DB) (req : ScheduledMessageCreate)
    (now1 now2 : Int) (rid : Nat) (tid : String) :
    Except (Nat × String) (List DB × ScheduledMessage) :=
  match db.findMessage req.message_id with
  | none => .error (404, "Message not found")
  | some _ =>
    match db.findGroup req.group_id with
    | none => .error (404, "Recipient group not found")
    | some _ =>
      if req.scheduled_time ≤ now1 then
        .error (400, "Scheduled time must be in the future")
      else
        let rec0 : ScheduledMessage :=
          { id := rid, message_id := req.message_id, group_id := req.group_id,
            scheduled_time := req.scheduled_time, status := "pending",
            task_id := none, error_message := none, sent_at := none }
        let db1 : DB := { db with schedules := db.schedules ++ [rec0] }
        -- line 34-35: time_until_send <= 0, i.e. scheduled_time ≤ now2
        if req.scheduled_time ≤ now2 then
          let rec1 := { rec0 with task_id := some tid }
          .ok ([db1, db1.updateSchedule rec1], rec1)
        else
          .ok ([db1], rec0)

/-- `PUT /schedules/{id}/cancel` (`schedules.py:68-79`). -/
def cancel_scheduled_message (db : DB) (schedule_id : Nat) :
    Except (Nat × String) DB :=
  match db.findSchedule schedule_id with
  | none => .error (404, "Scheduled message not found")
  | some m =>
    if m.status ≠ "pending" then
      .error (400, "Can only cancel pending messages")
    else
      .ok (db.updateSchedule { m with status := "cancelled" })

/-- `POST /schedules/{id}/send-now` (`schedules.py:81-96`); `tid` is the task
id of the enqueued job. -/
def send_now (db : DB) (schedule_id : Nat) (tid : String) :
    Except (Nat × String) DB :=
  match db.findSchedule schedule_id with
  | none => .error (404, "Scheduled message not found")
  | some m =>
    if m.status ≠ "pending" ∧ m.status ≠ "failed" then
      .error (400, "Can only send pending or failed messages")
    else
      .ok (db.updateSchedule { m with task_id := some tid, status := "pending" })

/-- `PUT /schedules/{id}/archive` (`schedules.py:98-109`). -/
def archive_scheduled_message (db : DB) (schedule_id : Nat) :
    Except (Nat × String) DB :=
  match db.findSchedule schedule_id with
  | none => .error (404, "Scheduled message not found")
  | some m =>
    if m.status = "archived" then
      .error (400, "Message is already archived")
    else
      .ok (db.updateSchedule { m with status := "archived" })

/-- `DELETE /schedules/{id}` (`schedules.py:111-122`). -/
def delete_scheduled_message (db : DB) (schedule_id : Nat) :
    Except (Nat × String) DB :=
  match db.findSchedule schedule_id with
  | none => .error (404, "Scheduled message not found")
  | some m =>
    if m.status ≠ "pending" ∧ m.status ≠ "cancelled" ∧
        m.status ≠ "failed" ∧ m.status ≠ "archived" then
      .error (400, "Cannot delete sent or sending messages")
    else
      .ok { db with schedules := db.schedules.filter (fun x => x.id ≠ schedule_id) }

/-! ## The periodic check task (`whatsapp_tasks.py:137-184`)

The Celery beat schedule (`app/celery_app.py:20-25`) runs
`check_scheduled_messages` every 10 seconds; it is the only periodic scan, so
it plays both the spec's Dispatch Poller and Recovery Sweep roles. -/

/-- Filter of the first query (lines 146-150): pending, due, no task id. -/
def isDueOrphan (current_time : Int) (m : ScheduledMessage) : Bool :=
  decide (m.status = "pending") && decide (m.scheduled_time ≤ current_time) &&
    m.task_id.isNone

/-- Filter of the second query (lines 167-171): pending, older than the stale
threshold, task id present. -/
def isStuck (stuck_time : Int) (m : ScheduledMessage) : Bool :=
  decide (m.status = "pending") && decide (m.scheduled_time ≤ stuck_time) &&
    m.task_id.isSome

/-- `datetime.now().replace(microsecond=0)` on a microsecond timestamp. -/
def truncSecond (t : Int) : Int := t - t.emod 1000000

/-- The enqueue loop shared by both passes (lines 155-163 and 175-180): for
each selected row call `send_scheduled_message.delay`, store the returned
task id, and commit. `base` indexes the task-id supply `nt`; returns the
final store, the committed snapshots, and the `(schedule id, task id)`
enqueue log. -/
def enqueueAll : DB → Nat → (Nat → String) → List ScheduledMessage →
    DB × List DB × List (Nat × String)
  | db, _, _, [] => (db, [], [])
  | db, b, nt, m :: rest =>
    let tid := nt b
    let db' := db.updateSchedule { m with task_id := some tid }
    let p := enqueueAll db' (b + 1) nt rest
    (p.1, db' :: p.2.1, (m.id, tid) :: p.2.2)

/-- `check_scheduled_messages` (`whatsapp_tasks.py:137-184`). `current_time`
is the clock read at line 142, `now2` the second read at line 166, `nt` the
supply of fresh Celery task ids. Returns the final store, all committed
snapshots, and the enqueue log. -/
def check_scheduled_messages (db : DB) (current_time now2 : Int)
    (nt : Nat → String) : DB × List DB × List (Nat × String) :=
  let overdue := db.schedules.filter (isDueOrphan current_time)
  let p1 := enqueueAll db 0 nt overdue
  let stuck_time := truncSecond now2 - 300000000
  let stuck := p1.1.schedules.filter (isStuck stuck_time)
  let p2 := enqueueAll p1.1 p1.2.2.length nt stuck
  (p2.1, p1.2.1 ++ p2.2.1, p1.2.2 ++ p2.2.2)

/-! ## Reachable states -/

/-- One invocation of any operation of the system that can write to the
schedules table. -/
inductive Op where
  | createOp (req : ScheduledMessageCreate) (now1 now2 : Int) (rid : Nat) (tid : String)
  | cancelOp (i : Nat)
  | archiveOp (i : Nat)
  | sendNowOp (i : Nat) (tid : String)
  | deleteOp (i : Nat)
  | workerOp (i : Nat) (gw : Nat → GwResult) (now : Int)
  | sweepOp (current_time now2 : Int) (nt : Nat → String)

/-- The store snapshots committed by one operation run against `db`, in commit
order (empty when the operation rejects or no-ops without committing). -/
def opCommits (db : DB) : Op → List DB
  | .createOp req n1 n2 rid tid =>
    match create_scheduled_message db req n1 n2 rid tid with
    | .ok (dbs, _) => dbs
    | .error _ => []
  | .cancelOp i =>
    match cancel_scheduled_message db i with
    | .ok d => [d]
    | .error _ => []
  | .archiveOp i =>
    match archive_scheduled_message db i with
    | .ok d => [d]
    | .error _ => []
  | .sendNowOp i tid =>
    match send_now db i tid with
    | .ok d => [d]
    | .error _ => []
  | .deleteOp i =>
    match delete_scheduled_message db i with
    | .ok d => [d]
    | .error _ => []
  | .workerOp i gw now => (send_scheduled_message db i gw now).1
  | .sweepOp ct n2 nt => (check_scheduled_messages db ct n2 nt).2.1

/-- A store state is reachable from `db0` when some sequence of operations
commits it (every committed snapshot counts as observable, since each one is
persisted before the next step runs). -/
inductive Reachable (db0 : DB) : DB → Prop
  | refl : Reachable db0 db0
  | step (db db' : DB) (op : Op) :
      Reachable db0 db → db' ∈ opCommits db op → Reachable db0 db'

/-- The status values the source code writes (the in-flight value is spelled
`"sending"` at `whatsapp_tasks.py:61`). -/
def codeStatuses : List String :=
  ["pending", "sending", "sent", "partially_sent", "failed", "cancelled", "archived"]

/-- Modelled from the spec: the seven status values enumerated in spec §3
(the spec names the in-flight status `dispatching`). -/
def specStatuses : List String :=
  ["pending", "dispatching", "sent", "partially_sent", "failed", "cancelled", "archived"]

/-- Every schedule row's status lies in the value set `l`. -/
def statusesIn (l : List String) (db : DB) : Prop :=
  ∀ m ∈ db.schedules, m.status ∈ l

instance statusesInDecidable (l : List String) (db : DB) :
    Decidable (statusesIn l db) :=
  inferInstanceAs (Decidable (∀ m ∈ db.schedules, m.status ∈ l))

/-- Number of successful gateway results among the paired outcomes. -/
def countOk (prs : List (Recipient × GwResult)) : Nat :=
  prs.countP (fun pr => isOk pr.2)

/-- Number of failed gateway results among the paired outcomes. -/
def countFail (prs : List (Recipient × GwResult)) : Nat :=
  prs.countP (fun pr => isFail pr.2)

/-- The failure descriptions generated by the loop, in encounter order. -/
def failTexts : List (Recipient × GwResult) → List String
  | [] => []
  | (r, .fail e d) :: rest => errorText r e d :: failTexts rest
  | _ :: rest => failTexts rest

/-! ## Concrete fixtures used by witnesses and counterexamples -/

/-- A message row used in concrete runs. -/
def exMessage : MessageRec := { id := 1, content := "hello" }

/-- First concrete recipient. -/
def exRecA : Recipient := { name := "Alice", phone_number := "111" }

/-- Second concrete recipient. -/
def exRecB : Recipient := { name := "Bob", phone_number := "222" }

/-- A two-member recipient group. -/
def exGroup : RecipientGroup := { id := 1, name := "G", recipients := [exRecA, exRecB] }

/-- A pending schedule row referencing `exMessage` and `exGroup`. -/
def exSched : ScheduledMessage :=
  { id := 1, message_id := 1, group_id := 1, scheduled_time := 0,
    status := "pending", task_id := none, error_message := none, sent_at := none }

/-- A store with one pending schedule, one message and one two-member group. -/
def exDb : DB := { schedules := [exSched], messages := [exMessage], groups := [exGroup] }

/-- Gateway oracle: first call succeeds, the rest fail. -/
def exGwMixed : Nat → GwResult :=
  fun k => if k = 0 then .ok else .fail (some "boom") none

/-- Gateway oracle: every call succeeds. -/
def exGwOk : Nat → GwResult := fun _ => .ok

/-- Gateway oracle: the second call raises an exception. -/
def exGwExn : Nat → GwResult :=
  fun k => if k = 0 then .ok else .exn "kaput"

/-- A task-id supply for concrete sweep runs. -/
def exTaskIds : Nat → String := fun k => "task-" ++ toString k

/-- A seven-member recipient group, for exercising the first-5 error bound. -/
def exGroup7 : RecipientGroup :=
  { id := 1, name := "G7",
    recipients := [⟨"r0", "0"⟩, ⟨"r1", "1"⟩, ⟨"r2", "2"⟩, ⟨"r3", "3"⟩,
      ⟨"r4", "4"⟩, ⟨"r5", "5"⟩, ⟨"r6", "6"⟩] }

/-- A store whose single schedule fans out to the seven-member group. -/
def exDb7 : DB := { schedules := [exSched], messages := [exMessage], groups := [exGroup7] }

/-- Gateway oracle: every call fails. -/
def exGwFail : Nat → GwResult := fun _ => .fail (some "boom") none

/-- The schedule row after a user cancellation. -/
def exSchedCancelled : ScheduledMessage := { exSched with status := "cancelled" }

/-- A store holding only the cancelled row. -/
def exDbCancelled : DB :=
  { schedules := [exSchedCancelled], messages := [exMessage], groups := [exGroup] }

/-- The schedule row after archiving. -/
def exSchedArchived : ScheduledMessage := { exSched with status := "archived" }

/-- A store holding only the archived row. -/
def exDbArchived : DB :=
  { schedules := [exSchedArchived], messages := [exMessage], groups := [exGroup] }

/-- A pending, currently-due row that already carries a dispatch handle. -/
def exSchedHandled : ScheduledMessage :=
  { exSched with scheduled_time := 1000000000, task_id := some "task-0" }

/-- A store holding only the handled due row. -/
def exDbHandled : DB :=
  { schedules := [exSchedHandled], messages := [exMessage], groups := [exGroup] }

/-- The first snapshot the worker commits on a concrete all-success run: the
record is in the in-flight state there. -/
def inflightSnapshot : DB :=
  ((send_scheduled_message exDb 1 exGwOk 0).1).headD exDb

/-! ## Store lemmas -/

theorem findSchedule_id {db : DB} {i : Nat} {m : ScheduledMessage}
    (h : db.findSchedule i = some m) : m.id = i := by
  have := List.find?_some h
  simpa using this

theorem find?_map_update (l : List ScheduledMessage) (m : ScheduledMessage) (i : Nat) :
    (l.map (fun x => if x.id = m.id then m else x)).find? (fun x => x.id == i) =
      if m.id = i then (l.find? (fun x => x.id == i)).map (fun _ => m)
      else l.find? (fun x => x.id == i) := by
  induction l with
  | nil => simp
  | cons a l ih =>
    by_cases ha : a.id = m.id
    · by_cases hi : m.id = i
      · simp [ha, hi, List.find?_cons]
      · have : ¬ a.id = i := by rw [ha]; exact hi
        simp [ha, hi, List.find?_cons, this, ih]
    · by_cases hi : a.id = i
      · by_cases hmi : m.id = i
        · exact absurd (hmi ▸ hi) ha
        · have hi' : ¬ i = m.id := fun h => hmi h.symm
          simp [List.find?_cons, ha, hi, hmi, hi']
      · simp [List.find?_cons, ha, hi, ih]

theorem findSchedule_update (db : DB) (m : ScheduledMessage) (i : Nat) :
    (db.updateSchedule m).findSchedule i =
      if m.id = i then (db.findSchedule i).map (fun _ => m)
      else db.findSchedule i :=
  find?_map_update db.schedules m i

theorem findSchedule_update_isSome (db : DB) (m : ScheduledMessage) (i : Nat) :
    ((db.updateSchedule m).findSchedule i).isSome = ((db.findSchedule i)).isSome := by
  rw [findSchedule_update]
  by_cases h : m.id = i <;> simp [h]

theorem findMessage_update (db : DB) (m : ScheduledMessage) (j : Nat) :
    (db.updateSchedule m).findMessage j = db.findMessage j := rfl

theorem findGroup_update (db : DB) (m : ScheduledMessage) (j : Nat) :
    (db.updateSchedule m).findGroup j = db.findGroup j := rfl

theorem updateSchedule_updateSchedule (db : DB) (a b : ScheduledMessage)
    (h : a.id = b.id) : (db.updateSchedule a).updateSchedule b = db.updateSchedule b := by
  unfold DB.updateSchedule
  simp only [List.map_map]
  congr 1
  apply List.map_congr_left
  intro x _
  by_cases hx : x.id = a.id
  · simp [Function.comp, hx, h ▸ hx, h]
  · have : ¬ x.id = b.id := fun hb => hx (h ▸ hb)
    simp [Function.comp, hx, this]

theorem mem_findSchedule_isSome {db : DB} {m : ScheduledMessage}
    (h : m ∈ db.schedules) : (db.findSchedule m.id).isSome := by
  rw [DB.findSchedule, List.find?_isSome]
  exact ⟨m, h, by simp⟩

/-! ## Recipient-loop lemmas -/

theorem finalRecord_id (m1 : ScheduledMessage) (n s f : Nat) (es : List String)
    (now : Int) : (finalRecord m1 n s f es now).id = m1.id := by
  unfold finalRecord
  dsimp only
  all_goals first
  | rfl
  | (split_ifs <;> rfl)

theorem finalRecord_message_id (m1 : ScheduledMessage) (n s f : Nat) (es : List String)
    (now : Int) : (finalRecord m1 n s f es now).message_id = m1.message_id := by
  unfold finalRecord
  dsimp only
  all_goals first
  | rfl
  | (split_ifs <;> rfl)

theorem finalRecord_group_id (m1 : ScheduledMessage) (n s f : Nat) (es : List String)
    (now : Int) : (finalRecord m1 n s f es now).group_id = m1.group_id := by
  unfold finalRecord
  dsimp only
  all_goals first
  | rfl
  | (split_ifs <;> rfl)

theorem finalRecord_task_id (m1 : ScheduledMessage) (n s f : Nat) (es : List String)
    (now : Int) : (finalRecord m1 n s f es now).task_id = m1.task_id := by
  unfold finalRecord
  dsimp only
  all_goals first
  | rfl
  | (split_ifs <;> rfl)

theorem finalRecord_scheduled_time (m1 : ScheduledMessage) (n s f : Nat) (es : List String)
    (now : Int) : (finalRecord m1 n s f es now).scheduled_time = m1.scheduled_time := by
  unfold finalRecord
  dsimp only
  all_goals first
  | rfl
  | (split_ifs <;> rfl)

theorem finalRecord_sent_at (m1 : ScheduledMessage) (n s f : Nat) (es : List String)
    (now : Int) : (finalRecord m1 n s f es now).sent_at = some now := by
  unfold finalRecord
  dsimp only

theorem finalRecord_status (m1 : ScheduledMessage) (n s f : Nat) (es : List String)
    (now : Int) : (finalRecord m1 n s f es now).status =
      if n = 0 then "failed"
      else if f = 0 ∧ 0 < s then "sent"
      else if s = 0 then "failed"
      else "partially_sent" := by
  unfold finalRecord
  dsimp only
  all_goals first
  | rfl
  | (split_ifs <;> rfl)

theorem finalRecord_error_message (m1 : ScheduledMessage) (n s f : Nat) (es : List String)
    (now : Int) : (finalRecord m1 n s f es now).error_message =
      if es = [] then
        (if n = 0 then some "No recipients found in group" else m1.error_message)
      else some (String.intercalate "; " (es.take 5)) := by
  unfold finalRecord
  dsimp only
  all_goals first
  | rfl
  | (split_ifs <;> rfl)

theorem pairOutcomes_length (L : List Recipient) (gw : Nat → GwResult) (i : Nat) :
    (pairOutcomes L gw i).length = L.length := by
  induction L generalizing i with
  | nil => rfl
  | cons r rest ih => simp [pairOutcomes, ih]

theorem sendLoop_done (prs : List (Recipient × GwResult))
    (h : ∀ pr ∈ prs, isExn pr.2 = false) (s f : Nat) (es : List String) :
    sendLoop prs s f es = .done (s + countOk prs) (f + countFail prs) (es ++ failTexts prs) := by
  induction prs generalizing s f es with
  | nil => simp [sendLoop, countOk, countFail, failTexts]
  | cons pr rest ih =>
    obtain ⟨r, res⟩ := pr
    have hrest : ∀ pr ∈ rest, isExn pr.2 = false := fun pr hpr => h pr (by simp [hpr])
    cases res with
    | ok =>
      rw [sendLoop, ih hrest]
      simp [countOk, countFail, failTexts, List.countP_cons, isOk, isFail,
        LoopOutcome.done.injEq]
      all_goals omega
    | fail e d =>
      rw [sendLoop, ih hrest]
      simp [countOk, countFail, failTexts, List.countP_cons, isOk, isFail,
        LoopOutcome.done.injEq]
      all_goals omega
    | exn m =>
      have := h (r, .exn m) (by simp)
      simp [isExn] at this

/-- A worker run against an absent record commits nothing and re-raises
nothing (`whatsapp_tasks.py:54-56`). -/
theorem send_not_found (db : DB) (i : Nat) (gw : Nat → GwResult) (now : Int)
    (hf : db.findSchedule i = none) :
    send_scheduled_message db i gw now = ([], none) := by
  rw [send_scheduled_message, hf]

/-- A worker run whose recipient loop terminates normally with the given
counters: the two committed snapshots and no re-raise. -/
theorem send_done_of_loop (db : DB) (i : Nat) (gw : Nat → GwResult) (now : Int)
    (m0 : ScheduledMessage) (msg : MessageRec) (group : RecipientGroup)
    (s f : Nat) (es : List String)
    (hf : db.findSchedule i = some m0)
    (hm : db.findMessage m0.message_id = some msg)
    (hg : db.findGroup m0.group_id = some group)
    (hl : sendLoop (pairOutcomes group.recipients gw 0) 0 0 [] = .done s f es) :
    send_scheduled_message db i gw now =
      ([db.updateSchedule { m0 with status := "sending" },
        db.updateSchedule
          (finalRecord { m0 with status := "sending" } group.recipients.length s f es now)],
        none) := by
  rw [send_scheduled_message]
  rw [hf]
  simp only [hm, hg, hl]
  rw [updateSchedule_updateSchedule]
  exact (finalRecord_id _ _ _ _ _ _).symm

/-- All-in-one description of a worker run that finds the record, resolves
both FK targets, and suffers no exception: the two committed snapshots and
the absence of a re-raise. -/
theorem send_done (db : DB) (i : Nat) (gw : Nat → GwResult) (now : Int)
    (m0 : ScheduledMessage) (msg : MessageRec) (group : RecipientGroup)
    (hf : db.findSchedule i = some m0)
    (hm : db.findMessage m0.message_id = some msg)
    (hg : db.findGroup m0.group_id = some group)
    (hne : ∀ pr ∈ pairOutcomes group.recipients gw 0, isExn pr.2 = false) :
    send_scheduled_message db i gw now =
      ([db.updateSchedule { m0 with status := "sending" },
        db.updateSchedule
          (finalRecord { m0 with status := "sending" } group.recipients.length
            (countOk (pairOutcomes group.recipients gw 0))
            (countFail (pairOutcomes group.recipients gw 0))
            (failTexts (pairOutcomes group.recipients gw 0)) now)],
        none) := by
  apply send_done_of_loop db i gw now m0 msg group _ _ _ hf hm hg
  have := sendLoop_done (pairOutcomes group.recipients gw 0) hne 0 0 []
  simpa using this

/-- A worker run whose recipient loop raises: the "sending" snapshot, the
handler's "failed" snapshot, and the re-raised message. -/
theorem send_raised (db : DB) (i : Nat) (gw : Nat → GwResult) (now : Int)
    (m0 : ScheduledMessage) (msg : MessageRec) (group : RecipientGroup) (e : String)
    (hf : db.findSchedule i = some m0)
    (hm : db.findMessage m0.message_id = some msg)
    (hg : db.findGroup m0.group_id = some group)
    (hl : sendLoop (pairOutcomes group.recipients gw 0) 0 0 [] = .raised e) :
    send_scheduled_message db i gw now =
      ([db.updateSchedule { m0 with status := "sending" },
        db.updateSchedule
          { m0 with status := "failed",
                    error_message := some ("System error: " ++ e) }],
        some e) := by
  rw [send_scheduled_message]
  rw [hf]
  simp only [hm, hg, hl]
  rw [updateSchedule_updateSchedule]
  rfl

/-- A worker run that loads the record but cannot resolve a FK target: the
Python `AttributeError` lands in the handler, which commits "failed" and
re-raises. -/
theorem send_missing_fk (db : DB) (i : Nat) (gw : Nat → GwResult) (now : Int)
    (m0 : ScheduledMessage)
    (hf : db.findSchedule i = some m0)
    (hmg : db.findMessage m0.message_id = none ∨ db.findGroup m0.group_id = none) :
    send_scheduled_message db i gw now =
      ([db.updateSchedule { m0 with status := "sending" },
        db.updateSchedule
          { m0 with status := "failed",
                    error_message := some ("System error: " ++ noneAttrError) }],
        some noneAttrError) := by
  cases hmv : db.findMessage m0.message_id with
  | none =>
    cases hgv : db.findGroup m0.group_id <;>
    · rw [send_scheduled_message, hf]
      simp only [hmv, hgv]
      rw [updateSchedule_updateSchedule]
      rfl
  | some msg =>
    cases hgv : db.findGroup m0.group_id with
    | none =>
      rw [send_scheduled_message, hf]
      simp only [hmv, hgv]
      rw [updateSchedule_updateSchedule]
      rfl
    | some g =>
      rcases hmg with h | h
      · rw [hmv] at h
        exact absurd h (by simp)
      · rw [hgv] at h
        exact absurd h (by simp)

theorem failed_ne_sending : ("failed" : String) ≠ "sending" := by decide

theorem isFail_of_isOk {r : GwResult} (h : isOk r = true) : isFail r = false := by
  cases r <;> simp_all [isOk, isFail]

theorem isOk_of_isFail {r : GwResult} (h : isFail r = true) : isOk r = false := by
  cases r <;> simp_all [isOk, isFail]

theorem findSchedule_update_hit {db : DB} {i : Nat} {m0 m : ScheduledMessage}
    (hf : db.findSchedule i = some m0) (hid : m.id = i) :
    (db.updateSchedule m).findSchedule i = some m := by
  rw [findSchedule_update, if_pos hid, hf]
  rfl

/-! ## Claim theorems -/

/-- C1: For every dispatch of a ScheduledSend by the Delivery Worker, the
final status is computed from the per-recipient outcomes: empty resolved
recipient list → `failed` (never `sent`); non-empty and all succeeded →
`sent`; at least one success and at least one failure → `partially_sent`;
all failed → `failed`. -/
theorem delivery_worker_final_status (db : DB) (i : Nat) (gw : Nat → GwResult)
    (now : Int) (m0 : ScheduledMessage) (msg : MessageRec) (group : RecipientGroup)
    (hf : db.findSchedule i = some m0)
    (hm : db.findMessage m0.message_id = some msg)
    (hg : db.findGroup m0.group_id = some group)
    (hne : ∀ pr ∈ pairOutcomes group.recipients gw 0, isExn pr.2 = false) :
    ∃ m', (workerFinal db i gw now).findSchedule i = some m' ∧
      (group.recipients = [] → m'.status = "failed") ∧
      (group.recipients ≠ [] →
        (∀ pr ∈ pairOutcomes group.recipients gw 0, isOk pr.2 = true) →
        m'.status = "sent") ∧
      ((∃ pr ∈ pairOutcomes group.recipients gw 0, isOk pr.2 = true) →
        (∃ pr ∈ pairOutcomes group.recipients gw 0, isFail pr.2 = true) →
        m'.status = "partially_sent") ∧
      (group.recipients ≠ [] →
        (∀ pr ∈ pairOutcomes group.recipients gw 0, isFail pr.2 = true) →
        m'.status = "failed") := by
  have hsend := send_done db i gw now m0 msg group hf hm hg hne
  have hwf : workerFinal db i gw now =
      db.updateSchedule
        (finalRecord { m0 with status := "sending" } group.recipients.length
          (countOk (pairOutcomes group.recipients gw 0))
          (countFail (pairOutcomes group.recipients gw 0))
          (failTexts (pairOutcomes group.recipients gw 0)) now) := by
    rw [workerFinal, hsend]
    rfl
  refine ⟨finalRecord { m0 with status := "sending" } group.recipients.length
    (countOk (pairOutcomes group.recipients gw 0))
    (countFail (pairOutcomes group.recipients gw 0))
    (failTexts (pairOutcomes group.recipients gw 0)) now, ?_, ?_, ?_, ?_, ?_⟩
  · rw [hwf]
    exact findSchedule_update_hit hf
      (by rw [finalRecord_id]; show m0.id = i; exact findSchedule_id hf)
  · intro h
    have hlen : group.recipients.length = 0 := by rw [h]; rfl
    rw [finalRecord_status, if_pos hlen]
  · intro hnil hall
    have hlen : group.recipients.length ≠ 0 :=
      fun hh => hnil (List.length_eq_zero.mp hh)
    have hfail0 : countFail (pairOutcomes group.recipients gw 0) = 0 := by
      rw [countFail, List.countP_eq_zero]
      intro pr hpr
      simp [isFail_of_isOk (hall pr hpr)]
    have hoklen : countOk (pairOutcomes group.recipients gw 0) =
        (pairOutcomes group.recipients gw 0).length :=
      List.countP_eq_length.mpr (fun pr hpr => hall pr hpr)
    have hpos : 0 < countOk (pairOutcomes group.recipients gw 0) := by
      rw [hoklen, pairOutcomes_length]
      exact Nat.pos_of_ne_zero hlen
    rw [finalRecord_status, if_neg hlen, if_pos ⟨hfail0, hpos⟩]
  · intro hexOk hexFail
    have h1 : 0 < countOk (pairOutcomes group.recipients gw 0) :=
      List.countP_pos_iff.mpr hexOk
    have h2 : 0 < countFail (pairOutcomes group.recipients gw 0) :=
      List.countP_pos_iff.mpr hexFail
    have hlen : group.recipients.length ≠ 0 := by
      obtain ⟨pr, hmem, _⟩ := hexOk
      have : (pairOutcomes group.recipients gw 0) ≠ [] := List.ne_nil_of_mem hmem
      rw [← pairOutcomes_length group.recipients gw 0]
      exact fun hh => this (List.length_eq_zero.mp hh)
    rw [finalRecord_status, if_neg hlen, if_neg (fun hc => by omega),
      if_neg (by omega)]
  · intro hnil hallf
    have hlen : group.recipients.length ≠ 0 :=
      fun hh => hnil (List.length_eq_zero.mp hh)
    have hok0 : countOk (pairOutcomes group.recipients gw 0) = 0 := by
      rw [countOk, List.countP_eq_zero]
      intro pr hpr
      simp [isOk_of_isFail (hallf pr hpr)]
    rw [finalRecord_status, if_neg hlen, if_neg (fun hc => by omega), if_pos hok0]

/-- C2: Whenever the Delivery Worker re-raises an unhandled exception that
occurred after the record was loaded, the last committed snapshot holds the
record with status `failed` and a system-error message; the record is not
left in the in-flight status (spelled `"sending"` in the code, `dispatching`
in the spec). -/
theorem worker_exception_commits_failed (db : DB) (i : Nat) (gw : Nat → GwResult)
    (now : Int) (dbs : List DB) (e : String)
    (h : send_scheduled_message db i gw now = (dbs, some e)) :
    ∃ d, dbs.getLast? = some d ∧ ∃ m, d.findSchedule i = some m ∧
      m.status = "failed" ∧ m.error_message = some ("System error: " ++ e) ∧
      m.status ≠ "sending" := by
  cases hf : db.findSchedule i with
  | none =>
    rw [send_not_found db i gw now hf] at h
    exact absurd (congrArg Prod.snd h) (by simp)
  | some m0 =>
    have hid : m0.id = i := findSchedule_id hf
    cases hmv : db.findMessage m0.message_id with
    | none =>
      rw [send_missing_fk db i gw now m0 hf (Or.inl hmv)] at h
      have hdbs := congrArg Prod.fst h
      have he : noneAttrError = e := by simpa using congrArg Prod.snd h
      dsimp at hdbs
      subst he
      refine
        ⟨db.updateSchedule
            { m0 with status := "failed",
                      error_message := some ("System error: " ++ noneAttrError) },
          ?_,
          { m0 with status := "failed",
                    error_message := some ("System error: " ++ noneAttrError) },
          ?_, rfl, rfl, by exact failed_ne_sending⟩
      · rw [← hdbs]
        rfl
      · exact findSchedule_update_hit hf hid
    | some msg =>
      cases hgv : db.findGroup m0.group_id with
      | none =>
        rw [send_missing_fk db i gw now m0 hf (Or.inr hgv)] at h
        have hdbs := congrArg Prod.fst h
        have he : noneAttrError = e := by simpa using congrArg Prod.snd h
        dsimp at hdbs
        subst he
        refine
          ⟨db.updateSchedule
              { m0 with status := "failed",
                        error_message := some ("System error: " ++ noneAttrError) },
            ?_,
            { m0 with status := "failed",
                      error_message := some ("System error: " ++ noneAttrError) },
            ?_, rfl, rfl, by exact failed_ne_sending⟩
        · rw [← hdbs]
          rfl
        · exact findSchedule_update_hit hf hid
      | some g =>
        cases hl : sendLoop (pairOutcomes g.recipients gw 0) 0 0 [] with
        | done s f es =>
          rw [send_done_of_loop db i gw now m0 msg g s f es hf hmv hgv hl] at h
          exact absurd (congrArg Prod.snd h) (by simp)
        | raised e' =>
          rw [send_raised db i gw now m0 msg g e' hf hmv hgv hl] at h
          have hdbs := congrArg Prod.fst h
          have he : e' = e := by simpa using congrArg Prod.snd h
          dsimp at hdbs
          subst he
          refine
            ⟨db.updateSchedule
                { m0 with status := "failed",
                          error_message := some ("System error: " ++ e') },
              ?_,
              { m0 with status := "failed",
                        error_message := some ("System error: " ++ e') },
              ?_, rfl, rfl, by exact failed_ne_sending⟩
          · rw [← hdbs]
            rfl
          · exact findSchedule_update_hit hf hid

/-- C9: The `error_message` committed by a dispatch joins at most the first 5
failure descriptions, however many recipients failed. -/
theorem worker_error_message_bounded (db : DB) (i : Nat) (gw : Nat → GwResult)
    (now : Int) (m0 : ScheduledMessage) (msg : MessageRec) (group : RecipientGroup)
    (hf : db.findSchedule i = some m0)
    (hm : db.findMessage m0.message_id = some msg)
    (hg : db.findGroup m0.group_id = some group)
    (hne : ∀ pr ∈ pairOutcomes group.recipients gw 0, isExn pr.2 = false) :
    ∃ m', (workerFinal db i gw now).findSchedule i = some m' ∧
      ((failTexts (pairOutcomes group.recipients gw 0)).take 5).length ≤ 5 ∧
      (failTexts (pairOutcomes group.recipients gw 0) ≠ [] →
        m'.error_message = some (String.intercalate "; "
          ((failTexts (pairOutcomes group.recipients gw 0)).take 5))) := by
  have hsend := send_done db i gw now m0 msg group hf hm hg hne
  have hwf : workerFinal db i gw now =
      db.updateSchedule
        (finalRecord { m0 with status := "sending" } group.recipients.length
          (countOk (pairOutcomes group.recipients gw 0))
          (countFail (pairOutcomes group.recipients gw 0))
          (failTexts (pairOutcomes group.recipients gw 0)) now) := by
    rw [workerFinal, hsend]
    rfl
  refine ⟨finalRecord { m0 with status := "sending" } group.recipients.length
    (countOk (pairOutcomes group.recipients gw 0))
    (countFail (pairOutcomes group.recipients gw 0))
    (failTexts (pairOutcomes group.recipients gw 0)) now, ?_, ?_, ?_⟩
  · rw [hwf]
    exact findSchedule_update_hit hf
      (by rw [finalRecord_id]; show m0.id = i; exact findSchedule_id hf)
  · exact List.length_take_le 5 _
  · intro hnonempty
    rw [finalRecord_error_message, if_neg hnonempty]

end WhatsAppScheduler

namespace WhatsAppScheduler

/-- C10: A schedule-creation request whose scheduled time is not strictly in
the future at the validation check is rejected and commits nothing
(`schedules.py:24-26`; a missing referenced message or group is likewise
rejected before any write). -/
theorem create_rejects_past_time (db : DB) (req : ScheduledMessageCreate)
    (now1 now2 : Int) (rid : Nat) (tid : String)
    (h : req.scheduled_time ≤ now1) :
    (∃ e, create_scheduled_message db req now1 now2 rid tid = .error e) ∧
    opCommits db (Op.createOp req now1 now2 rid tid) = [] := by
  have hres : ∃ e, create_scheduled_message db req now1 now2 rid tid = .error e := by
    rw [create_scheduled_message]
    cases hm : db.findMessage req.message_id with
    | none => exact ⟨_, rfl⟩
    | some msg =>
      cases hg : db.findGroup req.group_id with
      | none => exact ⟨_, rfl⟩
      | some g =>
        exact ⟨_, by rw [if_pos h]⟩
  obtain ⟨e, he⟩ := hres
  refine ⟨⟨e, he⟩, ?_⟩
  simp [opCommits, he]

/-- Counterexample for C4: a creation request that is already due at the
validation instant (scheduled time equal to the clock) is rejected with 400
and nothing is persisted, instead of being created and enqueued. -/
theorem create_due_request_rejected :
    create_scheduled_message exDb ⟨1, 1, 0⟩ 0 0 2 "task-0" =
      .error (400, "Scheduled time must be in the future") ∧
    opCommits exDb (Op.createOp ⟨1, 1, 0⟩ 0 0 2 "task-0") = [] :=
  ⟨rfl, rfl⟩

/-- C4 amended: a creation request already due at validation is rejected (see
C10); the immediate-dispatch branch fires exactly when the scheduled time
falls after the validation clock read but at or before the post-creation
clock read — then the record is created `pending` and a worker job is
enqueued with its handle persisted on the record, without a manual trigger. -/
theorem create_immediate_dispatch_window (db : DB) (req : ScheduledMessageCreate)
    (now1 now2 : Int) (rid : Nat) (tid : String) (msg : MessageRec) (g : RecipientGroup)
    (hm : db.findMessage req.message_id = some msg)
    (hg : db.findGroup req.group_id = some g)
    (h1 : now1 < req.scheduled_time) (h2 : req.scheduled_time ≤ now2) :
    ∃ dbs r, create_scheduled_message db req now1 now2 rid tid = .ok (dbs, r) ∧
      r.status = "pending" ∧ r.task_id = some tid ∧
      r.scheduled_time = req.scheduled_time ∧
      ∃ d, dbs.getLast? = some d ∧ r ∈ d.schedules := by
  rw [create_scheduled_message, hm, hg, if_neg (Int.not_le.mpr h1), if_pos h2]
  refine ⟨_, _, rfl, rfl, rfl, rfl, _, rfl, ?_⟩
  show _ ∈ List.map _ (db.schedules ++ [_])
  rw [List.map_append]
  apply List.mem_append_right
  simp

/-- Witness for C10: a concrete past-time request is rejected with nothing
committed. -/
theorem create_rejects_past_time_witness :
    (∃ e, create_scheduled_message exDb ⟨1, 1, 0⟩ 5 5 2 "task-0" = Except.error e) ∧
    opCommits exDb (Op.createOp ⟨1, 1, 0⟩ 5 5 2 "task-0") = [] :=
  create_rejects_past_time exDb ⟨1, 1, 0⟩ 5 5 2 "task-0" (by decide)

/-- Witness for the amended C4: a request becoming due between the two clock
reads is created and immediately enqueued. -/
theorem create_immediate_dispatch_window_witness :
    ∃ dbs r, create_scheduled_message exDb ⟨1, 1, 100⟩ 99 100 2 "task-0" =
      Except.ok (dbs, r) ∧ r.status = "pending" ∧ r.task_id = some "task-0" := by
  obtain ⟨dbs, r, heq, hst, htask, _, _⟩ :=
    create_immediate_dispatch_window exDb ⟨1, 1, 100⟩ 99 100 2 "task-0"
      exMessage exGroup (by decide) (by decide) (by decide) (by decide)
  exact ⟨dbs, r, heq, hst, htask⟩

/-- Witness for C1: a concrete mixed-outcome dispatch ends `partially_sent`. -/
theorem delivery_worker_final_status_witness :
    ∃ m', (workerFinal exDb 1 exGwMixed 7).findSchedule 1 = some m' ∧
      m'.status = "partially_sent" := by
  obtain ⟨m', hfind, _, _, hmix, _⟩ :=
    delivery_worker_final_status exDb 1 exGwMixed 7 exSched exMessage exGroup
      (by decide) (by decide) (by decide) (by decide)
  exact ⟨m', hfind, hmix (by decide) (by decide)⟩

/-- Witness for C2: a concrete run whose gateway raises at the second
recipient commits `failed` with the system-error message before re-raising. -/
theorem worker_exception_commits_failed_witness :
    ∃ d, ((send_scheduled_message exDb 1 exGwExn 7).1).getLast? = some d ∧
      ∃ m, d.findSchedule 1 = some m ∧ m.status = "failed" ∧
        m.error_message = some ("System error: " ++ "kaput") ∧
        m.status ≠ "sending" :=
  worker_exception_commits_failed exDb 1 exGwExn 7
    (send_scheduled_message exDb 1 exGwExn 7).1 "kaput" (by decide)

/-- Witness for C9: with seven failing recipients the committed error message
joins exactly the first five failure descriptions. -/
theorem worker_error_message_bounded_witness :
    ∃ m', (workerFinal exDb7 1 exGwFail 7).findSchedule 1 = some m' ∧
      m'.error_message = some (String.intercalate "; "
        ((failTexts (pairOutcomes exGroup7.recipients exGwFail 0)).take 5)) := by
  obtain ⟨m', hfind, _, hmsg⟩ :=
    worker_error_message_bounded exDb7 1 exGwFail 7 exSched exMessage exGroup7
      (by decide) (by decide) (by decide) (by decide)
  exact ⟨m', hfind, hmsg (by decide)⟩

end WhatsAppScheduler

namespace WhatsAppScheduler

/-- Counterexample for C6: archiving a `cancelled` record succeeds and
mutates it, and a Delivery Worker invocation carrying an `archived` record's
id re-dispatches it and rewrites its fields (here all the way to `sent`). -/
theorem cancelled_record_mutated :
    (exDbCancelled.findSchedule 1).map (fun m => m.status) = some "cancelled" ∧
    archive_scheduled_message exDbCancelled 1 =
      Except.ok (exDbCancelled.updateSchedule { exSchedCancelled with status := "archived" }) ∧
    exDbCancelled.updateSchedule { exSchedCancelled with status := "archived" } ≠
      exDbCancelled ∧
    ((workerFinal exDbArchived 1 exGwOk 7).findSchedule 1).map (fun m => m.status) =
      some "sent" :=
  ⟨rfl, rfl, by decide, rfl⟩

/-- C6 amended: once a record is `cancelled` or `archived`, the cancel and
send-now actions reject it without mutation and archiving an already
`archived` record is rejected; but the archive action does move a `cancelled`
record to `archived`, and a Delivery Worker invocation carrying the record's
id begins a fresh dispatch — its first commit overwrites the status to the
in-flight value regardless of the terminal status. -/
theorem terminal_status_mutation_profile (db : DB) (i : Nat) (tid : String)
    (gw : Nat → GwResult) (now : Int) (m : ScheduledMessage)
    (hf : db.findSchedule i = some m)
    (hterm : m.status = "cancelled" ∨ m.status = "archived") :
    cancel_scheduled_message db i = .error (400, "Can only cancel pending messages") ∧
    send_now db i tid = .error (400, "Can only send pending or failed messages") ∧
    (m.status = "archived" →
      archive_scheduled_message db i = .error (400, "Message is already archived")) ∧
    (m.status = "cancelled" →
      archive_scheduled_message db i =
        .ok (db.updateSchedule { m with status := "archived" })) ∧
    (send_scheduled_message db i gw now).1.head? =
      some (db.updateSchedule { m with status := "sending" }) := by
  have hnp : m.status ≠ "pending" := by
    rcases hterm with h | h <;> rw [h] <;> decide
  have hnfl : m.status ≠ "failed" := by
    rcases hterm with h | h <;> rw [h] <;> decide
  refine ⟨?_, ?_, ?_, ?_, ?_⟩
  · rw [cancel_scheduled_message, hf]
    simp only
    rw [if_pos hnp]
  · rw [send_now, hf]
    simp only
    rw [if_pos ⟨hnp, hnfl⟩]
  · intro h
    rw [archive_scheduled_message, hf]
    simp only
    rw [if_pos h]
  · intro h
    rw [archive_scheduled_message, hf]
    simp only
    rw [if_neg (by rw [h]; decide)]
  · cases hmv : db.findMessage m.message_id with
    | none =>
      rw [send_missing_fk db i gw now m hf (Or.inl hmv)]
      rfl
    | some msg =>
      cases hgv : db.findGroup m.group_id with
      | none =>
        rw [send_missing_fk db i gw now m hf (Or.inr hgv)]
        rfl
      | some g =>
        cases hl : sendLoop (pairOutcomes g.recipients gw 0) 0 0 [] with
        | done s f es =>
          rw [send_done_of_loop db i gw now m msg g s f es hf hmv hgv hl]
          rfl
        | raised e =>
          rw [send_raised db i gw now m msg g e hf hmv hgv hl]
          rfl

/-- Witness for the amended C6: the cancel action rejects a concrete
cancelled record. -/
theorem terminal_status_mutation_profile_witness :
    cancel_scheduled_message exDbCancelled 1 =
      Except.error (400, "Can only cancel pending messages") :=
  (terminal_status_mutation_profile exDbCancelled 1 "t" exGwOk 7 exSchedCancelled
    (by decide) (Or.inl rfl)).1

end WhatsAppScheduler

namespace WhatsAppScheduler

/-- Re-running the aggregation after a completed dispatch, with the same
counters and errors, rebuilds exactly the record a fresh dispatch would
commit (only `sent_at` follows the later completion time). -/
theorem finalRecord_restart (m0 : ScheduledMessage) (n s f : Nat) (es : List String)
    (t1 t2 : Int) :
    finalRecord { (finalRecord { m0 with status := "sending" } n s f es t1) with
      status := "sending" } n s f es t2 =
    finalRecord { m0 with status := "sending" } n s f es t2 := by
  unfold finalRecord
  dsimp only
  split_ifs <;> rfl

/-- C5: Invoking the Delivery Worker a second time on a record whose first
dispatch committed normally does not raise and leaves the store exactly as a
single fresh dispatch with the same gateway outcomes would. -/
theorem worker_idempotent (db : DB) (i : Nat) (gw : Nat → GwResult) (t1 t2 : Int)
    (h1 : (send_scheduled_message db i gw t1).2 = none) :
    (send_scheduled_message (workerFinal db i gw t1) i gw t2).2 = none ∧
    workerFinal (workerFinal db i gw t1) i gw t2 = workerFinal db i gw t2 := by
  cases hf : db.findSchedule i with
  | none =>
    have hw : workerFinal db i gw t1 = db := by
      rw [workerFinal, send_not_found db i gw t1 hf]
      rfl
    rw [hw]
    exact ⟨by rw [send_not_found db i gw t2 hf], rfl⟩
  | some m0 =>
    cases hmv : db.findMessage m0.message_id with
    | none =>
      rw [send_missing_fk db i gw t1 m0 hf (Or.inl hmv)] at h1
      simp at h1
    | some msg =>
      cases hgv : db.findGroup m0.group_id with
      | none =>
        rw [send_missing_fk db i gw t1 m0 hf (Or.inr hgv)] at h1
        simp at h1
      | some g =>
        cases hl : sendLoop (pairOutcomes g.recipients gw 0) 0 0 [] with
        | raised e =>
          rw [send_raised db i gw t1 m0 msg g e hf hmv hgv hl] at h1
          simp at h1
        | done s f es =>
          have hw1 : workerFinal db i gw t1 =
              db.updateSchedule (finalRecord { m0 with status := "sending" }
                g.recipients.length s f es t1) := by
            rw [workerFinal, send_done_of_loop db i gw t1 m0 msg g s f es hf hmv hgv hl]
            rfl
          have hid1 : (finalRecord { m0 with status := "sending" }
              g.recipients.length s f es t1).id = i := by
            rw [finalRecord_id]
            show m0.id = i
            exact findSchedule_id hf
          have hf2 : (db.updateSchedule (finalRecord { m0 with status := "sending" }
              g.recipients.length s f es t1)).findSchedule i =
              some (finalRecord { m0 with status := "sending" }
                g.recipients.length s f es t1) :=
            findSchedule_update_hit hf hid1
          have hm2 : (db.updateSchedule (finalRecord { m0 with status := "sending" }
              g.recipients.length s f es t1)).findMessage
              (finalRecord { m0 with status := "sending" }
                g.recipients.length s f es t1).message_id = some msg := by
            rw [findMessage_update, finalRecord_message_id]
            exact hmv
          have hg2 : (db.updateSchedule (finalRecord { m0 with status := "sending" }
              g.recipients.length s f es t1)).findGroup
              (finalRecord { m0 with status := "sending" }
                g.recipients.length s f es t1).group_id = some g := by
            rw [findGroup_update, finalRecord_group_id]
            exact hgv
          have hs2 := send_done_of_loop
            (db.updateSchedule (finalRecord { m0 with status := "sending" }
              g.recipients.length s f es t1)) i gw t2
            (finalRecord { m0 with status := "sending" } g.recipients.length s f es t1)
            msg g s f es hf2 hm2 hg2 hl
          have hs3 := send_done_of_loop db i gw t2 m0 msg g s f es hf hmv hgv hl
          constructor
          · rw [hw1, hs2]
          · rw [hw1]
            simp only [workerFinal]
            rw [hs2, hs3]
            show ((db.updateSchedule _).updateSchedule _ : DB) = _
            rw [finalRecord_restart]
            exact updateSchedule_updateSchedule db _ _
              (by rw [finalRecord_id, finalRecord_id])

/-- Witness for C5: re-delivering a concrete mixed-outcome dispatch leaves
the store as a single fresh dispatch would. -/
theorem worker_idempotent_witness :
    (send_scheduled_message (workerFinal exDb 1 exGwMixed 7) 1 exGwMixed 9).2 = none ∧
    workerFinal (workerFinal exDb 1 exGwMixed 7) 1 exGwMixed 9 =
      workerFinal exDb 1 exGwMixed 9 :=
  worker_idempotent exDb 1 exGwMixed 7 9 (by decide)

end WhatsAppScheduler

namespace WhatsAppScheduler

/-! ## Sweep lemmas -/

theorem enqueueAll_enq_ids (db : DB) (b : Nat) (nt : Nat → String)
    (L : List ScheduledMessage) :
    ((enqueueAll db b nt L).2.2).map Prod.fst = L.map (fun m => m.id) := by
  induction L generalizing db b with
  | nil => rfl
  | cons m rest ih => simp [enqueueAll, ih]

theorem enqueueAll_preserves_taskSome (db : DB) (b : Nat) (nt : Nat → String)
    (L : List ScheduledMessage) (i : Nat)
    (h : ∃ m', db.findSchedule i = some m' ∧ m'.task_id.isSome) :
    ∃ m', (enqueueAll db b nt L).1.findSchedule i = some m' ∧ m'.task_id.isSome := by
  induction L generalizing db b with
  | nil => exact h
  | cons a rest ih =>
    simp only [enqueueAll]
    apply ih
    obtain ⟨m', hm', hsome⟩ := h
    rw [findSchedule_update]
    by_cases hc : a.id = i
    · rw [if_pos (show ({ a with task_id := some (nt b) } : ScheduledMessage).id = i from hc),
        hm']
      exact ⟨_, rfl, rfl⟩
    · rw [if_neg (show ¬ ({ a with task_id := some (nt b) } : ScheduledMessage).id = i from hc)]
      exact ⟨m', hm', hsome⟩

theorem enqueueAll_member_taskSome (db : DB) (b : Nat) (nt : Nat → String)
    (L : List ScheduledMessage) (m : ScheduledMessage) (hm : m ∈ L)
    (hex : (db.findSchedule m.id).isSome) :
    ∃ m', (enqueueAll db b nt L).1.findSchedule m.id = some m' ∧ m'.task_id.isSome := by
  induction L generalizing db b with
  | nil => cases hm
  | cons a rest ih =>
    simp only [enqueueAll]
    rcases List.mem_cons.mp hm with rfl | hmem
    · apply enqueueAll_preserves_taskSome
      obtain ⟨m', hm'⟩ := Option.isSome_iff_exists.mp hex
      refine ⟨{ m with task_id := some (nt b) }, ?_, rfl⟩
      rw [findSchedule_update,
        if_pos (show ({ m with task_id := some (nt b) } : ScheduledMessage).id = m.id from rfl),
        hm']
      rfl
    · apply ih _ _ hmem
      rw [findSchedule_update_isSome]
      exact hex

theorem enqueueAll_untouched (db : DB) (b : Nat) (nt : Nat → String)
    (L : List ScheduledMessage) (i : Nat) (h : ∀ m ∈ L, m.id ≠ i) :
    (enqueueAll db b nt L).1.findSchedule i = db.findSchedule i := by
  induction L generalizing db b with
  | nil => rfl
  | cons a rest ih =>
    simp only [enqueueAll]
    rw [ih _ _ (fun m hm => h m (List.mem_cons_of_mem a hm))]
    rw [findSchedule_update,
      if_neg (show ¬ ({ a with task_id := some (nt b) } : ScheduledMessage).id = i from
        h a (List.mem_cons_self a rest))]

theorem updateSchedule_ids (db : DB) (x : ScheduledMessage) :
    ((db.updateSchedule x).schedules).map (fun m => m.id) =
      db.schedules.map (fun m => m.id) := by
  unfold DB.updateSchedule
  dsimp only
  rw [List.map_map]
  apply List.map_congr_left
  intro a _
  by_cases h : a.id = x.id <;> simp [Function.comp, h]

theorem enqueueAll_ids (db : DB) (b : Nat) (nt : Nat → String)
    (L : List ScheduledMessage) :
    ((enqueueAll db b nt L).1.schedules).map (fun m => m.id) =
      db.schedules.map (fun m => m.id) := by
  induction L generalizing db b with
  | nil => rfl
  | cons a rest ih =>
    simp only [enqueueAll]
    rw [ih, updateSchedule_ids]

theorem find?_eq_of_mem_nodup {l : List ScheduledMessage} {m : ScheduledMessage}
    (hnd : (l.map (fun x => x.id)).Nodup) (hm : m ∈ l) :
    l.find? (fun x => x.id == m.id) = some m := by
  induction l with
  | nil => cases hm
  | cons a rest ih =>
    rw [List.map_cons, List.nodup_cons] at hnd
    rcases List.mem_cons.mp hm with rfl | hmem
    · rw [List.find?_cons_of_pos]
      simp
    · have hne : (a.id == m.id) = false := by
        simp only [beq_eq_false_iff_ne, ne_eq]
        intro hEq
        exact hnd.1 (hEq ▸ List.mem_map_of_mem (fun x => x.id) hmem)
      simp only [List.find?_cons, hne]
      exact ih hnd.2 hmem

theorem findSchedule_of_mem_nodup {db : DB} {m : ScheduledMessage}
    (hnd : (db.schedules.map (fun x => x.id)).Nodup) (hm : m ∈ db.schedules) :
    db.findSchedule m.id = some m :=
  find?_eq_of_mem_nodup hnd hm

theorem id_inj_of_nodup {l : List ScheduledMessage}
    (hnd : (l.map (fun x => x.id)).Nodup)
    {a m : ScheduledMessage} (ha : a ∈ l) (hm : m ∈ l) (hEq : a.id = m.id) : a = m := by
  have h1 := find?_eq_of_mem_nodup hnd ha
  have h2 := find?_eq_of_mem_nodup hnd hm
  simp only [hEq] at h1
  exact Option.some.inj (h1.symm.trans h2)

theorem check_enq_ids (db : DB) (ct n2 : Int) (nt : Nat → String) :
    ((check_scheduled_messages db ct n2 nt).2.2).map Prod.fst =
      (db.schedules.filter (isDueOrphan ct)).map (fun m => m.id) ++
      (((enqueueAll db 0 nt (db.schedules.filter (isDueOrphan ct))).1.schedules).filter
        (isStuck (truncSecond n2 - 300000000))).map (fun m => m.id) := by
  simp only [check_scheduled_messages]
  rw [List.map_append, enqueueAll_enq_ids, enqueueAll_enq_ids]

end WhatsAppScheduler

namespace WhatsAppScheduler

/-- Counterexample for C3: a tick of the periodic scan leaves a pending,
currently-due send untouched — no job is enqueued for it — because it already
carries a dispatch handle and is not yet past the 5-minute stale threshold. -/
theorem poller_skips_handled_due_send :
    exSchedHandled.status = "pending" ∧
    exSchedHandled.scheduled_time ≤ 1000000000 ∧
    check_scheduled_messages exDbHandled 1000000000 1000000000 exTaskIds =
      (exDbHandled, [], []) := by
  refine ⟨rfl, by decide, ?_⟩
  rfl

/-- C3 amended: the per-tick scan enqueues a Delivery Worker job and persists
the returned handle for every pending due send *without* a dispatch handle;
a pending send that already has a handle is re-enqueued only once it is older
than the 5-minute stale threshold — until then the tick neither enqueues it
nor touches its record. -/
theorem poller_enqueues_orphans (db : DB) (ct n2 : Int) (nt : Nat → String)
    (hnd : (db.schedules.map (fun m => m.id)).Nodup) :
    (∀ m ∈ db.schedules, m.status = "pending" → m.scheduled_time ≤ ct →
      m.task_id = none →
      m.id ∈ ((check_scheduled_messages db ct n2 nt).2.2).map Prod.fst ∧
      ∃ m', (check_scheduled_messages db ct n2 nt).1.findSchedule m.id = some m' ∧
        m'.task_id.isSome) ∧
    (∀ m ∈ db.schedules, m.status = "pending" → m.task_id.isSome →
      truncSecond n2 - 300000000 < m.scheduled_time →
      m.id ∉ ((check_scheduled_messages db ct n2 nt).2.2).map Prod.fst ∧
      (check_scheduled_messages db ct n2 nt).1.findSchedule m.id = some m) := by
  constructor
  · intro m hm hp hd ht
    have hfil : m ∈ db.schedules.filter (isDueOrphan ct) :=
      List.mem_filter.mpr ⟨hm, by simp [isDueOrphan, hp, hd, ht]⟩
    constructor
    · rw [check_enq_ids]
      exact List.mem_append_left _ (List.mem_map_of_mem (fun m => m.id) hfil)
    · simp only [check_scheduled_messages]
      apply enqueueAll_preserves_taskSome
      exact enqueueAll_member_taskSome db 0 nt _ m hfil (mem_findSchedule_isSome hm)
  · intro m hm hp hsome hlt
    have hne_orph : ∀ a ∈ db.schedules.filter (isDueOrphan ct), a.id ≠ m.id := by
      intro a ha hEq
      have haf := List.mem_filter.mp ha
      have : a = m := id_inj_of_nodup hnd haf.1 hm hEq
      subst this
      have := haf.2
      simp [isDueOrphan] at this
      rw [this.2] at hsome
      simp at hsome
    have hnd1 : (((enqueueAll db 0 nt
        (db.schedules.filter (isDueOrphan ct))).1.schedules).map (fun m => m.id)).Nodup := by
      rw [enqueueAll_ids]
      exact hnd
    have hdb1find : (enqueueAll db 0 nt
        (db.schedules.filter (isDueOrphan ct))).1.findSchedule m.id = some m := by
      rw [enqueueAll_untouched db 0 nt _ m.id hne_orph]
      exact findSchedule_of_mem_nodup hnd hm
    have hmem1 : m ∈ (enqueueAll db 0 nt
        (db.schedules.filter (isDueOrphan ct))).1.schedules :=
      List.mem_of_find?_eq_some hdb1find
    have hne_stuck : ∀ a ∈ ((enqueueAll db 0 nt
        (db.schedules.filter (isDueOrphan ct))).1.schedules).filter
        (isStuck (truncSecond n2 - 300000000)), a.id ≠ m.id := by
      intro a ha hEq
      have haf := List.mem_filter.mp ha
      have : a = m := id_inj_of_nodup hnd1 haf.1 hmem1 hEq
      subst this
      have := haf.2
      simp [isStuck] at this
      omega
    constructor
    · rw [check_enq_ids]
      intro hcontra
      rcases List.mem_append.mp hcontra with hin | hin
      · obtain ⟨a, ha, hEq⟩ := List.mem_map.mp hin
        exact hne_orph a ha hEq
      · obtain ⟨a, ha, hEq⟩ := List.mem_map.mp hin
        exact hne_stuck a ha hEq
    · simp only [check_scheduled_messages]
      rw [enqueueAll_untouched _ _ nt _ m.id hne_stuck]
      exact hdb1find

/-- Witness for the amended C3: on a store holding one due orphan and one
handled send, the orphan is enqueued with its handle persisted. -/
theorem poller_enqueues_orphans_witness :
    1 ∈ ((check_scheduled_messages exDb 1000000000 1000000000 exTaskIds).2.2).map
      Prod.fst ∧
    ∃ m', (check_scheduled_messages exDb 1000000000 1000000000
      exTaskIds).1.findSchedule 1 = some m' ∧ m'.task_id.isSome := by
  have h := (poller_enqueues_orphans exDb 1000000000 1000000000 exTaskIds
    (by decide)).1 exSched (by decide) rfl (by decide) rfl
  exact h

/-- C8 as evaluated on the failing input: one sweep run over a single pending
send 10 minutes overdue with no dispatch handle enqueues *two* delivery jobs
for it — the orphan pass enqueues it and sets the handle, then the
stuck-message pass sees the freshly set handle and enqueues it again. -/
theorem sweep_double_enqueues_overdue_orphan :
    exSched.status = "pending" ∧ exSched.task_id = none ∧
    exSched.scheduled_time ≤ 600000000 ∧
    (check_scheduled_messages exDb 600000000 600000000 exTaskIds).2.2 =
      [(1, "task-0"), (1, "task-1")] := by
  refine ⟨rfl, rfl, by decide, ?_⟩
  rfl

end WhatsAppScheduler

namespace WhatsAppScheduler

/-! ## Status-closure lemmas -/

theorem statusesIn_update {l : List String} {db : DB} {x : ScheduledMessage}
    (h : statusesIn l db) (hx : x.status ∈ l) : statusesIn l (db.updateSchedule x) := by
  intro m hm
  unfold DB.updateSchedule at hm
  dsimp only at hm
  obtain ⟨z, hz, hzm⟩ := List.mem_map.mp hm
  by_cases hc : z.id = x.id
  · rw [if_pos hc] at hzm
    exact hzm ▸ hx
  · rw [if_neg hc] at hzm
    exact hzm ▸ h z hz

theorem pending_mem_codeStatuses : ("pending" : String) ∈ codeStatuses := by decide

theorem sending_mem_codeStatuses : ("sending" : String) ∈ codeStatuses := by decide

theorem failed_mem_codeStatuses : ("failed" : String) ∈ codeStatuses := by decide

theorem cancelled_mem_codeStatuses : ("cancelled" : String) ∈ codeStatuses := by decide

theorem archived_mem_codeStatuses : ("archived" : String) ∈ codeStatuses := by decide

theorem finalRecord_status_mem_codeStatuses (m1 : ScheduledMessage)
    (n s f : Nat) (es : List String) (now : Int) :
    (finalRecord m1 n s f es now).status ∈ codeStatuses := by
  rw [finalRecord_status]
  split_ifs <;> decide

theorem create_commits_statusesIn (db : DB) (req : ScheduledMessageCreate)
    (n1 n2 : Int) (rid : Nat) (tid : String) (dbs : List DB) (r : ScheduledMessage)
    (hc : create_scheduled_message db req n1 n2 rid tid = .ok (dbs, r))
    (h : statusesIn codeStatuses db) :
    ∀ d ∈ dbs, statusesIn codeStatuses d := by
  rw [create_scheduled_message] at hc
  cases hm : db.findMessage req.message_id with
  | none =>
    rw [hm] at hc
    simp at hc
  | some msg =>
    rw [hm] at hc
    cases hg : db.findGroup req.group_id with
    | none =>
      rw [hg] at hc
      simp at hc
    | some g =>
      rw [hg] at hc
      dsimp only at hc
      have hbase : ∀ rec : ScheduledMessage, rec.status ∈ codeStatuses →
          statusesIn codeStatuses { db with schedules := db.schedules ++ [rec] } := by
        intro rec hrec m hm2
        rcases List.mem_append.mp hm2 with hin | hin
        · exact h m hin
        · rw [List.mem_singleton.mp hin]
          exact hrec
      by_cases h1 : req.scheduled_time ≤ n1
      · rw [if_pos h1] at hc
        simp at hc
      · rw [if_neg h1] at hc
        by_cases h2 : req.scheduled_time ≤ n2
        · rw [if_pos h2] at hc
          injection hc with hpair
          injection hpair with hdbs hr
          subst hdbs
          intro d hd
          rcases List.mem_cons.mp hd with rfl | hd'
          · exact hbase _ pending_mem_codeStatuses
          · rw [List.mem_singleton.mp hd']
            exact statusesIn_update (hbase _ pending_mem_codeStatuses)
              pending_mem_codeStatuses
        · rw [if_neg h2] at hc
          injection hc with hpair
          injection hpair with hdbs hr
          subst hdbs
          intro d hd
          rw [List.mem_singleton.mp hd]
          exact hbase _ pending_mem_codeStatuses

theorem cancel_statusesIn (db : DB) (i : Nat) (d : DB)
    (hc : cancel_scheduled_message db i = .ok d) (h : statusesIn codeStatuses db) :
    statusesIn codeStatuses d := by
  rw [cancel_scheduled_message] at hc
  cases hf : db.findSchedule i with
  | none =>
    rw [hf] at hc
    simp at hc
  | some m =>
    rw [hf] at hc
    dsimp only at hc
    split_ifs at hc
    all_goals first
    | (exact Except.noConfusion hc)
    | (injection hc with hEq
       subst hEq
       exact statusesIn_update h cancelled_mem_codeStatuses)

theorem archive_statusesIn (db : DB) (i : Nat) (d : DB)
    (hc : archive_scheduled_message db i = .ok d) (h : statusesIn codeStatuses db) :
    statusesIn codeStatuses d := by
  rw [archive_scheduled_message] at hc
  cases hf : db.findSchedule i with
  | none =>
    rw [hf] at hc
    simp at hc
  | some m =>
    rw [hf] at hc
    dsimp only at hc
    split_ifs at hc
    all_goals first
    | (exact Except.noConfusion hc)
    | (injection hc with hEq
       subst hEq
       exact statusesIn_update h archived_mem_codeStatuses)

theorem send_now_statusesIn (db : DB) (i : Nat) (tid : String) (d : DB)
    (hc : send_now db i tid = .ok d) (h : statusesIn codeStatuses db) :
    statusesIn codeStatuses d := by
  rw [send_now] at hc
  cases hf : db.findSchedule i with
  | none =>
    rw [hf] at hc
    simp at hc
  | some m =>
    rw [hf] at hc
    dsimp only at hc
    split_ifs at hc
    all_goals first
    | (exact Except.noConfusion hc)
    | (injection hc with hEq
       subst hEq
       exact statusesIn_update h pending_mem_codeStatuses)

theorem delete_statusesIn (db : DB) (i : Nat) (d : DB)
    (hc : delete_scheduled_message db i = .ok d) (h : statusesIn codeStatuses db) :
    statusesIn codeStatuses d := by
  rw [delete_scheduled_message] at hc
  cases hf : db.findSchedule i with
  | none =>
    rw [hf] at hc
    simp at hc
  | some m =>
    rw [hf] at hc
    dsimp only at hc
    split_ifs at hc
    all_goals first
    | (exact Except.noConfusion hc)
    | (injection hc with hEq
       subst hEq
       intro z hz
       exact h z (List.mem_of_mem_filter hz))

theorem worker_commits_statusesIn (db : DB) (i : Nat) (gw : Nat → GwResult)
    (now : Int) (h : statusesIn codeStatuses db) :
    ∀ d ∈ (send_scheduled_message db i gw now).1, statusesIn codeStatuses d := by
  cases hf : db.findSchedule i with
  | none =>
    rw [send_not_found db i gw now hf]
    intro d hd
    simp at hd
  | some m0 =>
    have hfirst : statusesIn codeStatuses
        (db.updateSchedule { m0 with status := "sending" }) :=
      statusesIn_update h sending_mem_codeStatuses
    cases hmv : db.findMessage m0.message_id with
    | none =>
      rw [send_missing_fk db i gw now m0 hf (Or.inl hmv)]
      intro d hd
      rcases List.mem_cons.mp hd with rfl | hd'
      · exact hfirst
      · rw [List.mem_singleton.mp hd']
        exact statusesIn_update h failed_mem_codeStatuses
    | some msg =>
      cases hgv : db.findGroup m0.group_id with
      | none =>
        rw [send_missing_fk db i gw now m0 hf (Or.inr hgv)]
        intro d hd
        rcases List.mem_cons.mp hd with rfl | hd'
        · exact hfirst
        · rw [List.mem_singleton.mp hd']
          exact statusesIn_update h failed_mem_codeStatuses
      | some g =>
        cases hl : sendLoop (pairOutcomes g.recipients gw 0) 0 0 [] with
        | done s f es =>
          rw [send_done_of_loop db i gw now m0 msg g s f es hf hmv hgv hl]
          intro d hd
          rcases List.mem_cons.mp hd with rfl | hd'
          · exact hfirst
          · rw [List.mem_singleton.mp hd']
            exact statusesIn_update h (finalRecord_status_mem_codeStatuses _ _ _ _ _ _)
        | raised e =>
          rw [send_raised db i gw now m0 msg g e hf hmv hgv hl]
          intro d hd
          rcases List.mem_cons.mp hd with rfl | hd'
          · exact hfirst
          · rw [List.mem_singleton.mp hd']
            exact statusesIn_update h failed_mem_codeStatuses

theorem enqueueAll_statusesIn (db : DB) (b : Nat) (nt : Nat → String)
    (L : List ScheduledMessage) (h : statusesIn codeStatuses db)
    (hL : ∀ m ∈ L, m.status ∈ codeStatuses) :
    statusesIn codeStatuses (enqueueAll db b nt L).1 ∧
    ∀ d ∈ (enqueueAll db b nt L).2.1, statusesIn codeStatuses d := by
  induction L generalizing db b with
  | nil => exact ⟨h, by intro d hd; simp [enqueueAll] at hd⟩
  | cons a rest ih =>
    simp only [enqueueAll]
    have hdb' : statusesIn codeStatuses
        (db.updateSchedule { a with task_id := some (nt b) }) :=
      statusesIn_update h (hL a (List.mem_cons_self a rest))
    obtain ⟨h1, h2⟩ := ih _ (b + 1) hdb' (fun m hm => hL m (List.mem_cons_of_mem a hm))
    refine ⟨h1, ?_⟩
    intro d hd
    rcases List.mem_cons.mp hd with rfl | hd'
    · exact hdb'
    · exact h2 d hd'

theorem sweep_commits_statusesIn (db : DB) (ct n2 : Int) (nt : Nat → String)
    (h : statusesIn codeStatuses db) :
    ∀ d ∈ (check_scheduled_messages db ct n2 nt).2.1, statusesIn codeStatuses d := by
  simp only [check_scheduled_messages]
  intro d hd
  have hov : ∀ m ∈ db.schedules.filter (isDueOrphan ct), m.status ∈ codeStatuses :=
    fun m hm => h m (List.mem_of_mem_filter hm)
  obtain ⟨h1, h2⟩ := enqueueAll_statusesIn db 0 nt _ h hov
  have hst : ∀ m ∈ ((enqueueAll db 0 nt
      (db.schedules.filter (isDueOrphan ct))).1.schedules).filter
      (isStuck (truncSecond n2 - 300000000)), m.status ∈ codeStatuses :=
    fun m hm => h1 m (List.mem_of_mem_filter hm)
  obtain ⟨h3, h4⟩ := enqueueAll_statusesIn _ _ nt _ h1 hst
  rcases List.mem_append.mp hd with hd' | hd'
  · exact h2 d hd'
  · exact h4 d hd'

end WhatsAppScheduler

namespace WhatsAppScheduler

/-- Counterexample for C7: the worker's first commit puts the record into the
in-flight status, which the code spells `"sending"` — a value outside the
spec's seven-value enumeration (which names the in-flight status
`dispatching`). The snapshot is reachable from a store whose statuses all lie
in the spec's enumeration. -/
theorem inflight_status_outside_spec_enumeration :
    statusesIn specStatuses exDb ∧
    Reachable exDb inflightSnapshot ∧
    ¬ statusesIn specStatuses inflightSnapshot := by
  refine ⟨by decide, ?_, by decide⟩
  exact Reachable.step exDb inflightSnapshot (Op.workerOp 1 exGwOk 0)
    Reachable.refl (by decide)

/-- C7 amended: at every reachable state, every record's status is one of
exactly the seven values the code writes — `pending`, `sending`, `sent`,
`partially_sent`, `failed`, `cancelled`, `archived` (the spec's `dispatching`
is spelled `sending` by the code); no operation writes a status outside this
set. -/
theorem status_values_closed (db0 db : DB) (h0 : statusesIn codeStatuses db0)
    (h : Reachable db0 db) : statusesIn codeStatuses db := by
  induction h with
  | refl => exact h0
  | step dbx db' op hr hmem ih =>
    cases op with
    | createOp req n1 n2 rid tid =>
      revert hmem
      simp only [opCommits]
      cases hc : create_scheduled_message dbx req n1 n2 rid tid with
      | error e =>
        intro hmem
        simp at hmem
      | ok pr =>
        intro hmem
        exact create_commits_statusesIn dbx req n1 n2 rid tid pr.1 pr.2
          (by rw [hc]) ih db' hmem
    | cancelOp i =>
      revert hmem
      simp only [opCommits]
      cases hc : cancel_scheduled_message dbx i with
      | error e =>
        intro hmem
        simp at hmem
      | ok d =>
        intro hmem
        rw [List.mem_singleton.mp hmem]
        exact cancel_statusesIn dbx i d hc ih
    | archiveOp i =>
      revert hmem
      simp only [opCommits]
      cases hc : archive_scheduled_message dbx i with
      | error e =>
        intro hmem
        simp at hmem
      | ok d =>
        intro hmem
        rw [List.mem_singleton.mp hmem]
        exact archive_statusesIn dbx i d hc ih
    | sendNowOp i tid =>
      revert hmem
      simp only [opCommits]
      cases hc : send_now dbx i tid with
      | error e =>
        intro hmem
        simp at hmem
      | ok d =>
        intro hmem
        rw [List.mem_singleton.mp hmem]
        exact send_now_statusesIn dbx i tid d hc ih
    | deleteOp i =>
      revert hmem
      simp only [opCommits]
      cases hc : delete_scheduled_message dbx i with
      | error e =>
        intro hmem
        simp at hmem
      | ok d =>
        intro hmem
        rw [List.mem_singleton.mp hmem]
        exact delete_statusesIn dbx i d hc ih
    | workerOp i gw now =>
      exact worker_commits_statusesIn dbx i gw now ih db' hmem
    | sweepOp ct n2 nt =>
      exact sweep_commits_statusesIn dbx ct n2 nt ih db' hmem

/-- Witness for the amended C7: the in-flight snapshot of a concrete worker
run stays inside the code's seven-value status set. -/
theorem status_values_closed_witness :
    statusesIn codeStatuses inflightSnapshot :=
  status_values_closed exDb inflightSnapshot (by decide)
    (Reachable.step exDb inflightSnapshot (Op.workerOp 1 exGwOk 0)
      Reachable.refl (by decide))

end WhatsAppScheduler
